import Mathlib

/-!
Verification of the zeus STV election-form layer.

Shallow embedding of the ballot/election form code of the `zeus`
repository (`zeus/forms.py`, `zeus/views/site.py`) together with proofs
of the behavioural claims made by the specification about it.

Strings submitted through the web layer are modelled as Lean `String`s;
Django's `ValidationError` is modelled with `Except String`; the session
and request plumbing is elided, keeping only the data flow relevant to
ballot ingestion and election configuration.
-/

namespace Zeus

/-! ## Python string primitives

Python 2 `str.strip()`, `int(str)` and `str.split(sep)` used by the form
code, modelled over the character list of a `String`. -/

/-- The whitespace characters recognised by Python's `str.strip()` / `int()`. -/
def pySpace (c : Char) : Bool :=
  c == ' ' || c == '\t' || c == '\n' || c == '\r' || c == '\x0b' || c == '\x0c'

/-- Strip leading and trailing whitespace from a character list. -/
def pyStripChars (cs : List Char) : List Char :=
  ((cs.dropWhile pySpace).reverse.dropWhile pySpace).reverse

/-- Python `s.strip()`. -/
def pyStrip (s : String) : String :=
  ⟨pyStripChars s.data⟩

/-- Value of a decimal digit character. -/
def digitVal (c : Char) : Nat := c.toNat - 48

/-- Parse a non-empty all-digit character list as a natural number. -/
def parseDigits (cs : List Char) : Option Nat :=
  if cs = [] then none
  else if cs.all (fun c => c.isDigit) then
    some (cs.foldl (fun a c => 10 * a + digitVal c) 0)
  else none

/-- Python 2 `int(s)` on a string: strip whitespace, optional sign, then a
non-empty run of decimal digits; `none` models the `ValueError` raised on
any other input. -/
def pyInt (s : String) : Option Int :=
  match pyStripChars s.data with
  | '+' :: rest => (parseDigits rest).map (fun n => (n : Int))
  | '-' :: rest => (parseDigits rest).map (fun n => -(n : Int))
  | cs => (parseDigits cs).map (fun n => (n : Int))

/-- Python `s.split(sep)` on character lists (single-character separator). -/
def splitChar (sep : Char) : List Char → List (List Char)
  | [] => [[]]
  | c :: rest =>
    if c == sep then [] :: splitChar sep rest
    else
      match splitChar sep rest with
      | [] => [[c]]
      | g :: gs => (c :: g) :: gs

/-- Python `s.split(sep)` for strings. -/
def pySplit (s : String) (sep : Char) : List String :=
  (splitChar sep s.data).map (fun cs => ⟨cs⟩)

/-! ## Ballot data

The vote dictionaries built by `STVBallotForm.get_choices`
(`zeus/forms.py`). -/

/-- One `{rank, candidateTmpId}` entry of a ballot's `votes` list. -/
structure Vote where
  rank : Nat
  candidateTmpId : String
deriving DecidableEq

/-- The dictionary returned by `STVBallotForm.get_choices`:
`{"votes": [...], "ballotSerialNumber": serial}`. -/
structure BallotVote where
  votes : List Vote
  ballotSerialNumber : Nat
deriving DecidableEq

namespace STVBallotForm

/-! Embedding of `STVBallotForm` (`zeus/forms.py` lines 1413-1453).  The form holds one
`ChoiceField` per candidate (`choice_1` … `choice_n`); a submitted form is
modelled by the list `vals` of its cleaned choice values in field order,
`""` standing for the empty choice. -/

/-- The allowed values of each choice field, as built in
`STVBallotForm.__init__`: the empty choice `("", "")` followed by
`(str(i), c)` for each enumerated candidate.  A value outside this list is
rejected by Django's `ChoiceField` validation. -/
def choiceValues (candidates : List String) : List String :=
  "" :: (List.range candidates.length).map (fun i => toString i)

/-- The loop of `get_choices`: walk the choice values in field order
starting at rank `i`, stop at the first empty value (`break`), and record
`{"rank": i, "candidateTmpId": val}` for each non-empty value. -/
def getChoicesFrom : Nat → List String → List Vote
  | _, [] => []
  | i, val :: rest =>
    if val = "" then []
    else { rank := i, candidateTmpId := val } :: getChoicesFrom (i + 1) rest

/-- Embedding of `STVBallotForm.get_choices(serial)`. -/
def get_choices (vals : List String) (serial : Nat) : BallotVote :=
  { votes := getChoicesFrom 1 vals, ballotSerialNumber := serial }

/-- The loop of `STVBallotForm.clean`: carries the `empty` flag, collects
the non-empty choice values, and raises `Invalid ballot` as soon as a
non-empty choice follows an empty one. -/
def collectChoices : Bool → List String → Except String (List String)
  | _, [] => .ok []
  | empty, val :: rest =>
    if val = "" then collectChoices true rest
    else if empty then .error "Invalid ballot"
    else (collectChoices empty rest).map (fun cs => val :: cs)

/-- Embedding of `STVBallotForm.clean`: run the choice-collecting loop, then raise
`Invalid ballot` when the collected choices contain a duplicate
(`len(choices) != len(set(choices))`). -/
def clean (vals : List String) : Except String Unit :=
  match collectChoices false vals with
  | .error e => .error e
  | .ok choices => if choices.Nodup then .ok () else .error "Invalid ballot"

end STVBallotForm

namespace SiteViews

/-! The ballot-assembly loop of `stv_count` (`zeus/views/site.py` lines
70-74): `for i, b in enumerate(ballots_form)`, skip a form whose
`get_choices(i + 1)` has no votes, append the others in order. -/

/-- The assembly loop from enumerate counter `i` on: each kept entry is
`get_choices(i + 1)` of its form; forms with an empty `votes` list are
skipped (`continue`). -/
def assembleFrom : Nat → List (List String) → List BallotVote
  | _, [] => []
  | i, b :: rest =>
    let choices := STVBallotForm.get_choices b (i + 1)
    if choices.votes = [] then assembleFrom (i + 1) rest
    else choices :: assembleFrom (i + 1) rest

/-- The full `el['ballots']` list assembled by `stv_count` from the valid
ballot formset. -/
def assembleBallots (forms : List (List String)) : List BallotVote :=
  assembleFrom 0 forms

end SiteViews

namespace StvForm

/-! Embedding of `StvForm` (`zeus/forms.py` lines 618-767).  Each submitted candidate
answer is the JSON pair `[name, department]` produced by
`CandidateWidget.value_from_datadict`, modelled as `String × String`. -/

/-- The cleaned data produced by `StvForm.clean`: the candidate keys used
for the duplicate check and the (overwritten) `droop_quota` flag. -/
structure StvCleaned where
  candidates : List (Option String)
  droop_quota : Bool
deriving DecidableEq

/-- Embedding of `StvForm._clean_answer`: reject a name containing `%`
(`INVALID_CHAR_MSG % "%"`); an empty name records a field error and yields
the key `None`; otherwise the key is the stripped name. -/
def cleanAnswer (answer : String × String) : Except String (Option String) :=
  if answer.1.data.contains '%' then .error "% is not a valid character."
  else if answer.1 = "" then .ok none
  else .ok (some (pyStrip answer.1))

/-- The key `_clean_answer` yields for an answer that does not raise:
`None` for an empty name, the stripped name otherwise. -/
def answerKey (answer : String × String) : Option String :=
  if answer.1 = "" then none else some (pyStrip answer.1)

/-- The loop of `StvForm.clean` building `candidates_list`: clean each
answer in order, propagating the first `ValidationError`. -/
def collectKeys : List (String × String) → Except String (List (Option String))
  | [] => .ok []
  | a :: rest =>
    match cleanAnswer a with
    | .error e => .error e
    | .ok k => (collectKeys rest).map (fun ks => k :: ks)

/-- Embedding of `StvForm.clean`: clean each answer in order, collect the keys into
`candidates_list`, raise `No duplicate choices allowed` when the list has
a duplicate (`len(candidates_list) > len(set(candidates_list))`), and
finally overwrite `cleaned_data["droop_quota"]` with `True`.  `droopIn`
is the submitted `droop_quota` value sitting in `cleaned_data`; the
method never reads it. -/
def clean (answers : List (String × String)) (droopIn : Bool) :
    Except String StvCleaned :=
  match collectKeys answers with
  | .error e => .error e
  | .ok keys =>
    if keys.Nodup then .ok { candidates := keys, droop_quota := true }
    else .error "No duplicate choices allowed"

/-- Embedding of `StvForm.clean_eligibles`: `int(eligibles)`, return it when strictly
positive, otherwise raise `Value must be a positve integer` (also on a
parse failure). -/
def clean_eligibles (eligibles : String) : Except String Int :=
  match pyInt eligibles with
  | none => .error "Value must be a positve integer"
  | some n =>
    if 0 < n then .ok n else .error "Value must be a positve integer"

/-- Embedding of `StvForm.clean_department_limit`: with the checkbox off return `0`
regardless of the typed value; with it on, an empty value, a parse
failure, or a non-positive value raises `Value must be a positve
integer`, and a positive value is returned. -/
def clean_department_limit (has_department_limit : Bool)
    (department_limit : String) : Except String Int :=
  if has_department_limit then
    if department_limit = "" then .error "Value must be a positve integer"
    else
      match pyInt department_limit with
      | none => .error "Value must be a positve integer"
      | some n =>
        if 0 < n then .ok n else .error "Value must be a positve integer"
  else .ok 0

end StvForm

namespace UniCouncilsGrForm

/-- Embedding of `UniCouncilsGrForm.clean`: run `StvForm.clean`, then overwrite
`cleaned_data["droop_quota"]` with `False`. -/
def clean (answers : List (String × String)) (droopIn : Bool) :
    Except String StvForm.StvCleaned :=
  match StvForm.clean answers droopIn with
  | .error e => .error e
  | .ok c => .ok { c with droop_quota := false }

end UniCouncilsGrForm

namespace STVElectionForm

/-- The stripped candidate lines of `STVElectionForm.clean_candidates`:
`candidates.strip().split("\n")`, each line stripped. -/
def candidateLines (candidates : String) : List String :=
  (pySplit (pyStrip candidates) '\n').map pyStrip

/-- Embedding of `STVElectionForm.clean_candidates`: raise `Candidate ... is invalid`
at the first line that does not split on `,` into exactly 4 fields;
otherwise return the stripped lines. -/
def clean_candidates (candidates : String) : Except String (List String) :=
  let cs := candidateLines candidates
  match cs.find? (fun c => (pySplit c ',').length != 4) with
  | some c => .error ("Candidate " ++ c ++ " is invalid")
  | none => .ok cs

/-- The `electedLimit` entry of `STVElectionForm.get_data`:
`data.get("elected_limit") or 0`, with Python falsiness (`None` and `0`
both give `0`). -/
def electedLimit (elected_limit : Option Int) : Int :=
  match elected_limit with
  | none => 0
  | some n => if n = 0 then 0 else n

end STVElectionForm

namespace QuotaCalculator

/-- Modelled from the spec: the Quota Calculator
(`compute(valid_ballot_count, seats, policy)`) of the STV counting engine
(`zeus.stv_count_reports`), whose source is not part of this repository
snapshot.  Per the spec: Droop policy gives
`floor(valid_ballot_count / (seats + 1)) + 1`, the simple policy gives
`ceil(valid_ballot_count / seats)`; an empty electorate raises
`EmptyElectorateError` and fewer registered candidates than seats raises
`InsufficientCandidatesError`. -/
def compute (validBallots seats registered : Nat) (droop : Bool) :
    Except String Nat :=
  if validBallots = 0 then .error "EmptyElectorateError"
  else if registered < seats then .error "InsufficientCandidatesError"
  else if droop then .ok (validBallots / (seats + 1) + 1)
  else .ok ((validBallots + seats - 1) / seats)

end QuotaCalculator

/-! ## Helper lemmas about `STVBallotForm` -/

namespace STVBallotForm

theorem getChoicesFrom_map_rank (vals : List String) (k : Nat) :
    (getChoicesFrom k vals).map Vote.rank
      = List.range' k (getChoicesFrom k vals).length := by
  induction vals generalizing k with
  | nil => simp [getChoicesFrom]
  | cons v rest ih =>
    by_cases h : v = ""
    · simp [getChoicesFrom, h]
    · simp [getChoicesFrom, h, List.range'_succ, ih (k + 1)]

theorem mem_getChoicesFrom {vote : Vote} {vals : List String} {k : Nat}
    (h : vote ∈ getChoicesFrom k vals) :
    vote.candidateTmpId ∈ vals ∧ vote.candidateTmpId ≠ "" := by
  induction vals generalizing k with
  | nil => simp [getChoicesFrom] at h
  | cons v rest ih =>
    by_cases hv : v = ""
    · simp [getChoicesFrom, hv] at h
    · simp only [getChoicesFrom, if_neg hv, List.mem_cons] at h
      rcases h with h | h
      · subst h
        exact ⟨List.mem_cons_self _ _, hv⟩
      · obtain ⟨h1, h2⟩ := ih h
        exact ⟨List.mem_cons_of_mem _ h1, h2⟩

theorem collectChoices_ok {vals : List String} {b : Bool} {cs : List String}
    (h : collectChoices b vals = .ok cs) :
    cs = vals.filter (fun v => v ≠ "") := by
  induction vals generalizing b cs with
  | nil =>
    simp only [collectChoices, Except.ok.injEq] at h
    simp [← h]
  | cons v rest ih =>
    by_cases hv : v = ""
    · rw [hv] at h ⊢
      simp only [collectChoices, if_pos rfl] at h
      simpa using ih h
    · cases b with
      | true => simp [collectChoices, hv] at h
      | false =>
        simp only [collectChoices, if_neg hv, if_neg Bool.false_ne_true] at h
        cases hrest : collectChoices false rest with
        | error e => rw [hrest] at h; simp [Except.map] at h
        | ok cs' =>
          rw [hrest] at h
          simp only [Except.map, Except.ok.injEq] at h
          rw [← h]
          simp [List.filter_cons, hv, ih hrest]

theorem collectChoices_shape (b : Bool) (vals : List String) :
    (∃ cs, collectChoices b vals = .ok cs)
      ∨ collectChoices b vals = .error "Invalid ballot" := by
  induction vals generalizing b with
  | nil => exact .inl ⟨[], rfl⟩
  | cons v rest ih =>
    by_cases hv : v = ""
    · simpa [collectChoices, hv] using ih true
    · cases b with
      | true => simp [collectChoices, hv]
      | false =>
        rcases ih false with ⟨cs, hcs⟩ | herr
        · exact .inl ⟨v :: cs, by simp [collectChoices, hv, hcs, Except.map]⟩
        · exact .inr (by simp [collectChoices, hv, herr, Except.map])

theorem collectChoices_true_error {vals : List String} {v : String}
    (hm : v ∈ vals) (hv : v ≠ "") :
    collectChoices true vals = .error "Invalid ballot" := by
  induction vals with
  | nil => simp at hm
  | cons w rest ih =>
    by_cases hw : w = ""
    · rcases List.mem_cons.mp hm with h | h
      · exact absurd (h.trans hw) hv
      · simpa [collectChoices, hw] using ih h
    · simp [collectChoices, hw]

theorem collectChoices_gap {vals : List String} {i j : Nat}
    (hij : i < j) (hj : j < vals.length) (hi : i < vals.length)
    (he : vals.get ⟨i, hi⟩ = "") (hne : vals.get ⟨j, hj⟩ ≠ "") :
    collectChoices false vals = .error "Invalid ballot" := by
  induction vals generalizing i j with
  | nil => simp at hj
  | cons v rest ih =>
    cases j with
    | zero => omega
    | succ j' =>
      have hj' : j' < rest.length := Nat.lt_of_succ_lt_succ hj
      have hne' : rest.get ⟨j', hj'⟩ ≠ "" := by simpa using hne
      cases i with
      | zero =>
        have hv : v = "" := by simpa using he
        rw [hv]
        simp only [collectChoices, if_pos rfl]
        exact collectChoices_true_error (List.get_mem rest j' hj') hne'
      | succ i' =>
        have hi' : i' < rest.length := Nat.lt_of_succ_lt_succ hi
        have he' : rest.get ⟨i', hi'⟩ = "" := by simpa using he
        by_cases hv : v = ""
        · rw [hv]
          simp only [collectChoices, if_pos rfl]
          exact collectChoices_true_error (List.get_mem rest j' hj') hne'
        · have herr := ih (Nat.lt_of_succ_lt_succ hij) hj' hi' he' hne'
          simp [collectChoices, hv, herr, Except.map]

theorem collectChoices_replicate_empty (b : Bool) (m : Nat) :
    collectChoices b (List.replicate m "") = .ok [] := by
  induction m generalizing b with
  | zero => rfl
  | succ m ih => simp [List.replicate_succ, collectChoices, ih]

theorem clean_replicate_empty (m : Nat) :
    clean (List.replicate m "") = .ok () := by
  simp [clean, collectChoices_replicate_empty]

end STVBallotForm

/-! ## Helper lemmas about the `stv_count` ballot assembly -/

namespace SiteViews

theorem mem_assembleFrom {b : BallotVote} {forms : List (List String)}
    {i : Nat} (hb : b ∈ assembleFrom i forms) :
    ∃ j, ∃ h : j < forms.length,
      b = STVBallotForm.get_choices (forms.get ⟨j, h⟩) (i + j + 1) := by
  induction forms generalizing i with
  | nil => simp [assembleFrom] at hb
  | cons f rest ih =>
    simp only [assembleFrom] at hb
    by_cases hc : (STVBallotForm.get_choices f (i + 1)).votes = []
    · rw [if_pos hc] at hb
      obtain ⟨j, h, hbj⟩ := ih hb
      refine ⟨j + 1, Nat.succ_lt_succ h, ?_⟩
      have : i + (j + 1) + 1 = i + 1 + j + 1 := by omega
      rw [this]
      simpa using hbj
    · rw [if_neg hc] at hb
      rcases List.mem_cons.mp hb with h | h
      · exact ⟨0, Nat.succ_pos _, by simpa using h⟩
      · obtain ⟨j, hj, hbj⟩ := ih h
        refine ⟨j + 1, Nat.succ_lt_succ hj, ?_⟩
        have : i + (j + 1) + 1 = i + 1 + j + 1 := by omega
        rw [this]
        simpa using hbj

theorem serial_of_mem_assembleFrom {b : BallotVote}
    {forms : List (List String)} {i : Nat} (hb : b ∈ assembleFrom i forms) :
    i < b.ballotSerialNumber := by
  obtain ⟨j, h, rfl⟩ := mem_assembleFrom hb
  simp [STVBallotForm.get_choices]
  omega

theorem assembleFrom_serial_pairwise (forms : List (List String)) (i : Nat) :
    ((assembleFrom i forms).map BallotVote.ballotSerialNumber).Pairwise
      (fun a b => a < b) := by
  induction forms generalizing i with
  | nil => simp [assembleFrom]
  | cons f rest ih =>
    simp only [assembleFrom]
    by_cases hc : (STVBallotForm.get_choices f (i + 1)).votes = []
    · rw [if_pos hc]
      exact ih (i + 1)
    · rw [if_neg hc]
      simp only [List.map_cons, List.pairwise_cons]
      constructor
      · intro x hx
        obtain ⟨b, hb, rfl⟩ := List.mem_map.mp hx
        have := serial_of_mem_assembleFrom hb
        simpa [STVBallotForm.get_choices] using this
      · exact ih (i + 1)

theorem assembleFrom_mem_iff (forms : List (List String)) (i j : Nat)
    (h : j < forms.length) :
    STVBallotForm.get_choices (forms.get ⟨j, h⟩) (i + j + 1)
        ∈ assembleFrom i forms
      ↔ (STVBallotForm.get_choices (forms.get ⟨j, h⟩) (i + j + 1)).votes
          ≠ [] := by
  induction forms generalizing i j with
  | nil => simp at h
  | cons f rest ih =>
    cases j with
    | zero =>
      simp only [List.get]
      constructor
      · intro hmem
        by_contra hvotes
        simp only [assembleFrom] at hmem
        rw [if_pos (by simpa using hvotes)] at hmem
        have hlt := serial_of_mem_assembleFrom hmem
        simp [STVBallotForm.get_choices] at hlt
      · intro hne
        simp only [assembleFrom]
        rw [if_neg (by simpa using hne)]
        exact List.mem_cons_self _ _
    | succ j' =>
      have hj' : j' < rest.length := Nat.lt_of_succ_lt_succ h
      have harith : i + (j' + 1) + 1 = i + 1 + j' + 1 := by omega
      have hget : (f :: rest).get ⟨j' + 1, h⟩ = rest.get ⟨j', hj'⟩ := rfl
      rw [hget, harith]
      simp only [assembleFrom]
      by_cases hc : (STVBallotForm.get_choices f (i + 1)).votes = []
      · rw [if_pos hc]
        exact ih (i + 1) j' hj'
      · rw [if_neg hc]
        rw [List.mem_cons]
        constructor
        · rintro (heq | hmem)
          · have := congrArg BallotVote.ballotSerialNumber heq
            simp [STVBallotForm.get_choices] at this
            omega
          · exact (ih (i + 1) j' hj').mp hmem
        · intro hne
          exact .inr ((ih (i + 1) j' hj').mpr hne)

end SiteViews

/-! ## Helper lemmas about `StvForm` -/

namespace StvForm

theorem cleanAnswer_eq_key {answer : String × String}
    (hfree : answer.1.data.contains '%' = false) :
    cleanAnswer answer = .ok (answerKey answer) := by
  by_cases he : answer.1 = ""
  · simp [cleanAnswer, answerKey, hfree, he]
  · simp [cleanAnswer, answerKey, hfree, he]
    simpa using hfree

theorem collectKeys_ok {answers : List (String × String)}
    (hfree : ∀ a ∈ answers, a.1.data.contains '%' = false) :
    collectKeys answers = .ok (answers.map answerKey) := by
  induction answers with
  | nil => rfl
  | cons a rest ih =>
    have ha := cleanAnswer_eq_key (hfree a (List.mem_cons_self _ _))
    have hrest := ih (fun x hx => hfree x (List.mem_cons_of_mem _ hx))
    simp [collectKeys, ha, hrest, Except.map]

end StvForm

/-! ## The claims -/

/-- C1, counterexample: the claim that every ballot of a valid submission,
including one with no choices, appears in the ballot list handed to the
counting engine is false: the single-form submission `[""]` (one
candidate, empty choice) passes `STVBallotForm.clean`, yet `stv_count`
assembles an empty ballot list from it. -/
theorem empty_ballot_dropped :
    STVBallotForm.clean [""] = .ok ()
      ∧ SiteViews.assembleBallots [[""]] = [] :=
  ⟨rfl, rfl⟩

/-- C1, amended: a ballot with an empty ranked sequence passes formset
validation, but it is excluded from the ballot list `stv_count` hands to
the counting engine: a form's ballot appears in the assembled list iff
its choice sequence is non-empty. -/
theorem empty_ballot_excluded (forms : List (List String)) (j : Nat)
    (h : j < forms.length) (m : Nat) :
    STVBallotForm.clean (List.replicate m "") = .ok ()
    ∧ (STVBallotForm.get_choices (forms.get ⟨j, h⟩) (j + 1)
          ∈ SiteViews.assembleBallots forms
        ↔ (STVBallotForm.get_choices (forms.get ⟨j, h⟩) (j + 1)).votes
            ≠ []) := by
  refine ⟨STVBallotForm.clean_replicate_empty m, ?_⟩
  have := SiteViews.assembleFrom_mem_iff forms 0 j h
  simpa using this

/-- Witness for C1 (amended) at the one-form submission `[[""]]`. -/
theorem empty_ballot_excluded_witness :
    STVBallotForm.clean (List.replicate 1 "") = .ok ()
    ∧ (STVBallotForm.get_choices
          (([[""]] : List (List String)).get ⟨0, Nat.zero_lt_one⟩) (0 + 1)
          ∈ SiteViews.assembleBallots [[""]]
        ↔ (STVBallotForm.get_choices
          (([[""]] : List (List String)).get ⟨0, Nat.zero_lt_one⟩)
            (0 + 1)).votes ≠ []) :=
  empty_ballot_excluded [[""]] 0 Nat.zero_lt_one 1

/-- C2: under the Droop policy the Quota Calculator returns
`floor(valid_ballot_count / (seats + 1)) + 1` for every positive ballot
count and seat count; in particular 3 valid ballots and 1 seat give
quota 2. -/
theorem droop_quota_formula (validBallots seats registered : Nat)
    (hv : 0 < validBallots) (hs : 0 < seats) (hreg : seats ≤ registered) :
    QuotaCalculator.compute validBallots seats registered true
      = .ok (validBallots / (seats + 1) + 1)
    ∧ QuotaCalculator.compute 3 1 2 true = .ok 2 := by
  constructor
  · unfold QuotaCalculator.compute
    rw [if_neg (by omega), if_neg (by omega), if_pos rfl]
  · rfl

/-- Witness for C2 at 3 valid ballots, 1 seat, 2 candidates. -/
theorem droop_quota_formula_witness :
    QuotaCalculator.compute 3 1 2 true = .ok (3 / (1 + 1) + 1)
    ∧ QuotaCalculator.compute 3 1 2 true = .ok 2 :=
  droop_quota_formula 3 1 2 (by decide) (by decide) (by decide)

/-- C3: `get_choices` carries ranks exactly `1, 2, …, k` in ascending
order with no gaps, and a submission in which a non-empty choice follows
an empty choice fails validation with `Invalid ballot`, so produced
preference lists are contiguous prefixes. -/
theorem ballot_ranks_contiguous (vals : List String) (serial : Nat) :
    ((STVBallotForm.get_choices vals serial).votes.map Vote.rank
        = List.range' 1 (STVBallotForm.get_choices vals serial).votes.length)
    ∧ (∀ i j, ∀ hi : i < vals.length, ∀ hj : j < vals.length, i < j →
        vals.get ⟨i, hi⟩ = "" → vals.get ⟨j, hj⟩ ≠ "" →
        STVBallotForm.clean vals = .error "Invalid ballot") := by
  constructor
  · exact STVBallotForm.getChoicesFrom_map_rank vals 1
  · intro i j hi hj hij he hne
    have herr := STVBallotForm.collectChoices_gap hij hj hi he hne
    simp [STVBallotForm.clean, herr]

/-- Witness for C3 at the concrete submission `["0", "", "1"]`. -/
theorem ballot_ranks_contiguous_witness :
    ((STVBallotForm.get_choices ["0", "", "1"] 1).votes.map Vote.rank
        = List.range' 1
            (STVBallotForm.get_choices ["0", "", "1"] 1).votes.length)
    ∧ STVBallotForm.clean ["0", "", "1"] = .error "Invalid ballot" :=
  ⟨(ballot_ranks_contiguous ["0", "", "1"] 1).1,
   (ballot_ranks_contiguous ["0", "", "1"] 1).2 1 2 (by decide) (by decide)
     (by decide) (by decide) (by decide)⟩

/-- C4: a submitted `STVBallotForm` whose non-empty choices name the same
candidate twice fails validation with `Invalid ballot`, so no vote is
produced from it. -/
theorem duplicate_choice_rejected (vals : List String) (v : String)
    (hv : v ≠ "") (hcount : 2 ≤ vals.count v) :
    STVBallotForm.clean vals = .error "Invalid ballot" := by
  rcases STVBallotForm.collectChoices_shape false vals with ⟨cs, hcs⟩ | herr
  · have hcsf := STVBallotForm.collectChoices_ok hcs
    have hcv : 2 ≤ cs.count v := by
      rw [hcsf]
      rwa [List.count_filter (by simpa using hv)]
    have hnd : ¬ cs.Nodup := by
      intro hnd
      have := List.nodup_iff_count_le_one.mp hnd v
      omega
    simp [STVBallotForm.clean, hcs, hnd]
  · simp [STVBallotForm.clean, herr]

/-- Witness for C4 at the concrete submission `["0", "0"]`. -/
theorem duplicate_choice_rejected_witness :
    STVBallotForm.clean ["0", "0"] = .error "Invalid ballot" :=
  duplicate_choice_rejected ["0", "0"] "0" (by decide) (by decide)

/-- C5: every `candidateTmpId` in a vote produced by a validated
`STVBallotForm` identifies a registered candidate: each cleaned choice
value lies in the enumerated field choices (`""` or `str(i)` for
`i < n`), so every produced id is `str(i)` for some candidate index
`i < n` and the unknown-candidate branch of ingestion is unreachable. -/
theorem choices_name_registered (candidates vals : List String)
    (serial : Nat) (hlen : vals.length = candidates.length)
    (hvalid : ∀ v ∈ vals, v ∈ STVBallotForm.choiceValues candidates) :
    ∀ vote ∈ (STVBallotForm.get_choices vals serial).votes,
      ∃ i, i < candidates.length ∧ vote.candidateTmpId = toString i := by
  intro vote hvote
  obtain ⟨hmem, hne⟩ := STVBallotForm.mem_getChoicesFrom hvote
  have hv := hvalid _ hmem
  simp only [STVBallotForm.choiceValues, List.mem_cons] at hv
  rcases hv with h | h
  · exact absurd h hne
  · obtain ⟨i, hi, hrep⟩ := List.mem_map.mp h
    exact ⟨i, List.mem_range.mp hi, hrep.symm⟩

/-- Witness for C5: the validated submission `["1", ""]` over two
candidates, evaluated at its single produced vote. -/
theorem choices_name_registered_witness :
    ∃ i, i < (["Alice", "Bob"] : List String).length
      ∧ (Vote.mk 1 "1").candidateTmpId = toString i :=
  choices_name_registered ["Alice", "Bob"] ["1", ""] 7 (by decide)
    (by decide) (Vote.mk 1 "1") (by decide)

/-- C6: `StvForm.clean_eligibles` returns the submitted value as an
integer exactly when the string parses as an integer strictly greater
than zero, and raises `Value must be a positve integer` for zero,
negative, or non-integer input. -/
theorem eligibles_positive_integer (s : String) :
    (∀ n : Int, StvForm.clean_eligibles s = .ok n
        ↔ (pyInt s = some n ∧ 0 < n))
    ∧ ((pyInt s = none ∨ ∃ n, pyInt s = some n ∧ n ≤ 0) →
        StvForm.clean_eligibles s
          = .error "Value must be a positve integer") := by
  constructor
  · intro n
    cases hp : pyInt s with
    | none => simp [StvForm.clean_eligibles, hp]
    | some m =>
      simp only [StvForm.clean_eligibles, hp, Option.some.injEq]
      by_cases hm : 0 < m
      · rw [if_pos hm]
        simp only [Except.ok.injEq]
        constructor
        · rintro rfl
          exact ⟨rfl, hm⟩
        · rintro ⟨rfl, _⟩
          rfl
      · rw [if_neg hm]
        constructor
        · intro h
          exact Except.noConfusion h
        · rintro ⟨rfl, hn⟩
          exact absurd hn hm
  · rintro (hp | ⟨n, hp, hn⟩)
    · simp [StvForm.clean_eligibles, hp]
    · simp only [StvForm.clean_eligibles, hp]
      rw [if_neg (by omega)]

/-- Witness for C6 at `" 42 "` (accepted as 42) and `"0"` (rejected). -/
theorem eligibles_positive_integer_witness :
    StvForm.clean_eligibles " 42 " = .ok 42
    ∧ StvForm.clean_eligibles "0"
        = .error "Value must be a positve integer" :=
  ⟨((eligibles_positive_integer " 42 ").1 42).mpr ⟨by decide, by decide⟩,
   (eligibles_positive_integer "0").2 (.inr ⟨0, by decide, by decide⟩)⟩

/-- C7: with the constituency-limit checkbox off,
`StvForm.clean_department_limit` returns 0 regardless of the typed value;
with it on, it returns the limit exactly when it parses as an integer
strictly greater than zero and raises `Value must be a positve integer`
for empty, zero, negative, or non-integer input; and
`STVElectionForm.get_data` maps an absent `elected_limit` to 0. -/
theorem department_limit_optional :
    (∀ dep, StvForm.clean_department_limit false dep = .ok 0)
    ∧ (∀ dep, ∀ n : Int, StvForm.clean_department_limit true dep = .ok n
        ↔ (pyInt dep = some n ∧ 0 < n))
    ∧ (∀ dep, (pyInt dep = none ∨ ∃ n, pyInt dep = some n ∧ n ≤ 0) →
        StvForm.clean_department_limit true dep
          = .error "Value must be a positve integer")
    ∧ STVElectionForm.electedLimit none = 0 := by
  refine ⟨fun dep => rfl, ?_, ?_, rfl⟩
  · intro dep n
    by_cases hd : dep = ""
    · subst hd
      simp [StvForm.clean_department_limit, show pyInt "" = none from rfl]
    · cases hp : pyInt dep with
      | none => simp [StvForm.clean_department_limit, hd, hp]
      | some m =>
        by_cases hm : 0 < m
        · simp only [StvForm.clean_department_limit, if_neg hd, hp,
            if_pos hm, if_true, Option.some.injEq, Except.ok.injEq]
          constructor
          · rintro rfl
            exact ⟨rfl, hm⟩
          · rintro ⟨rfl, _⟩
            rfl
        · simp only [StvForm.clean_department_limit, if_neg hd, hp,
            if_neg hm, if_true, Option.some.injEq]
          constructor
          · intro h
            exact Except.noConfusion h
          · rintro ⟨rfl, hn⟩
            exact absurd hn hm
  · intro dep hbad
    by_cases hd : dep = ""
    · subst hd
      rfl
    · rcases hbad with hp | ⟨n, hp, hn⟩
      · simp [StvForm.clean_department_limit, hd, hp]
      · simp [StvForm.clean_department_limit, hd, hp,
          show ¬(0 < n) from by omega]

/-- Witness for C7 at a checkbox-off submission, `"5"` (accepted) and
`"0"` (rejected). -/
theorem department_limit_optional_witness :
    StvForm.clean_department_limit false "whatever" = .ok 0
    ∧ StvForm.clean_department_limit true "5" = .ok 5
    ∧ StvForm.clean_department_limit true "0"
        = .error "Value must be a positve integer"
    ∧ STVElectionForm.electedLimit none = 0 :=
  ⟨department_limit_optional.1 "whatever",
   (department_limit_optional.2.1 "5" 5).mpr ⟨by decide, by decide⟩,
   department_limit_optional.2.2.1 "0" (.inr ⟨0, by decide, by decide⟩),
   department_limit_optional.2.2.2⟩

/-- C8: every ballot `stv_count` hands to the counting engine comes from
the form at some 0-based position `j` of the formset and carries serial
number `j + 1`, its 1-based position; the serial numbers are positive,
strictly increasing in list order (order received), and pairwise
distinct. -/
theorem ballot_serials (forms : List (List String)) :
    (∀ b ∈ SiteViews.assembleBallots forms,
        ∃ j, ∃ h : j < forms.length,
          b = STVBallotForm.get_choices (forms.get ⟨j, h⟩) (j + 1)
          ∧ b.ballotSerialNumber = j + 1)
    ∧ (∀ b ∈ SiteViews.assembleBallots forms, 0 < b.ballotSerialNumber)
    ∧ ((SiteViews.assembleBallots forms).map
        BallotVote.ballotSerialNumber).Pairwise (fun a b => a < b)
    ∧ ((SiteViews.assembleBallots forms).map
        BallotVote.ballotSerialNumber).Nodup := by
  refine ⟨?_, ?_, ?_, ?_⟩
  · intro b hb
    obtain ⟨j, h, hbj⟩ := SiteViews.mem_assembleFrom hb
    refine ⟨j, h, ?_, ?_⟩
    · simpa using hbj
    · rw [hbj]
      simp [STVBallotForm.get_choices]
  · intro b hb
    exact SiteViews.serial_of_mem_assembleFrom hb
  · exact SiteViews.assembleFrom_serial_pairwise forms 0
  · exact (SiteViews.assembleFrom_serial_pairwise forms 0).imp
      (fun hab => Nat.ne_of_lt hab)

/-- Witness for C8 at the formset `[["0"], [""], ["1"]]`, whose middle
ballot is empty: the kept ballots carry serials 1 and 3. -/
theorem ballot_serials_witness :
    (∃ j, ∃ h : j < ([["0"], [""], ["1"]] : List (List String)).length,
        STVBallotForm.get_choices ["1"] 3
          = STVBallotForm.get_choices
              (([["0"], [""], ["1"]] : List (List String)).get ⟨j, h⟩)
              (j + 1)
        ∧ (STVBallotForm.get_choices ["1"] 3).ballotSerialNumber = j + 1)
    ∧ ((SiteViews.assembleBallots [["0"], [""], ["1"]]).map
        BallotVote.ballotSerialNumber).Nodup :=
  ⟨(ballot_serials [["0"], [""], ["1"]]).1
      (STVBallotForm.get_choices ["1"] 3) (by decide),
   (ballot_serials [["0"], [""], ["1"]]).2.2.2⟩

/-- C9, counterexample: the claim that every submitted candidate list
containing a duplicate entry is rejected by form validation is false for
`STVElectionForm`: `clean_candidates` accepts a list whose two lines are
identical, producing a configuration with the duplicate entries. -/
theorem stv_election_duplicates_accepted :
    STVElectionForm.clean_candidates "a, b, c, d\na, b, c, d"
      = .ok ["a, b, c, d", "a, b, c, d"] := rfl

/-- C9, amended: `StvForm.clean` rejects a candidate list in which two
answers carry the same name with `No duplicate choices allowed`;
`STVElectionForm.clean_candidates`, by contrast, only checks that every
line has exactly 4 comma-separated fields and accepts any such list,
duplicates included. -/
theorem duplicate_candidates_rejected (answers : List (String × String))
    (d : Bool) (i j : Nat) (hi : i < answers.length)
    (hj : j < answers.length) (hij : i ≠ j)
    (hfree : ∀ a ∈ answers, a.1.data.contains '%' = false)
    (heq : (answers.get ⟨i, hi⟩).1 = (answers.get ⟨j, hj⟩).1)
    (s : String)
    (hall : (STVElectionForm.candidateLines s).all
        (fun c => (pySplit c ',').length == 4) = true) :
    StvForm.clean answers d = .error "No duplicate choices allowed"
    ∧ STVElectionForm.clean_candidates s
        = .ok (STVElectionForm.candidateLines s) := by
  constructor
  · have hkeys := StvForm.collectKeys_ok hfree
    simp only [StvForm.clean, hkeys]
    have hnd : ¬ (answers.map StvForm.answerKey).Nodup := by
      intro hnd
      have hi' : i < (answers.map StvForm.answerKey).length := by
        simpa using hi
      have hj' : j < (answers.map StvForm.answerKey).length := by
        simpa using hj
      have hg : (answers.map StvForm.answerKey).get ⟨i, hi'⟩
          = (answers.map StvForm.answerKey).get ⟨j, hj'⟩ := by
        simp only [List.get_map, StvForm.answerKey, heq]
      have := (List.Nodup.get_inj_iff hnd).mp hg
      exact hij (by simpa using this)
    rw [if_neg hnd]
  · have hnone : (STVElectionForm.candidateLines s).find?
        (fun c => (pySplit c ',').length != 4) = none := by
      rw [List.find?_eq_none]
      intro c hc
      have h4 := List.all_eq_true.mp hall c hc
      simp only [bne_iff_ne, ne_eq, Bool.not_eq_true]
      simp only [beq_iff_eq] at h4
      simp [h4]
    simp [STVElectionForm.clean_candidates, hnone]

/-- Witness for C9 (amended): the duplicate candidate name `"a"` at
positions 0 and 1, and a well-formed 4-field candidate line. -/
theorem duplicate_candidates_rejected_witness :
    StvForm.clean [("a", "x"), ("a", "y")] true
      = .error "No duplicate choices allowed"
    ∧ STVElectionForm.clean_candidates "p, q, r, s"
        = .ok (STVElectionForm.candidateLines "p, q, r, s") :=
  duplicate_candidates_rejected [("a", "x"), ("a", "y")] true 0 1
    (by decide) (by decide) (by decide) (by decide) (by decide)
    "p, q, r, s" (by decide)

/-- C10: the quota policy flag is not user-controllable: two submissions
differing only in the `droop_quota` value give identical results from
`StvForm.clean`, any successful `StvForm.clean` forces `droop_quota` to
`True`, and `UniCouncilsGrForm.clean` forces it to `False`. -/
theorem droop_flag_not_user_controllable
    (answers : List (String × String)) (d1 d2 : Bool) :
    StvForm.clean answers d1 = StvForm.clean answers d2
    ∧ (∀ c, StvForm.clean answers d1 = .ok c → c.droop_quota = true)
    ∧ (∀ c, UniCouncilsGrForm.clean answers d1 = .ok c
        → c.droop_quota = false) := by
  refine ⟨rfl, ?_, ?_⟩
  · intro c hc
    cases hk : StvForm.collectKeys answers with
    | error e =>
      simp only [StvForm.clean, hk] at hc
      exact Except.noConfusion hc
    | ok keys =>
      simp only [StvForm.clean, hk] at hc
      by_cases hnd : keys.Nodup
      · rw [if_pos hnd] at hc
        injection hc with h
        rw [← h]
      · rw [if_neg hnd] at hc
        exact Except.noConfusion hc
  · intro c hc
    cases hs : StvForm.clean answers d1 with
    | error e =>
      simp only [UniCouncilsGrForm.clean, hs] at hc
      exact Except.noConfusion hc
    | ok c' =>
      simp only [UniCouncilsGrForm.clean, hs] at hc
      injection hc with h
      rw [← h]

/-- Witness for C10 at the one-answer submission `[("a", "x")]` with the
two `droop_quota` inputs `false` and `true`. -/
theorem droop_flag_not_user_controllable_witness :
    StvForm.clean [("a", "x")] false = StvForm.clean [("a", "x")] true
    ∧ (StvForm.StvCleaned.mk [some "a"] true).droop_quota = true
    ∧ (StvForm.StvCleaned.mk [some "a"] false).droop_quota = false :=
  ⟨(droop_flag_not_user_controllable [("a", "x")] false true).1,
   (droop_flag_not_user_controllable [("a", "x")] false true).2.1
      (StvForm.StvCleaned.mk [some "a"] true) rfl,
   (droop_flag_not_user_controllable [("a", "x")] false true).2.2
      (StvForm.StvCleaned.mk [some "a"] false) rfl⟩

end Zeus
